import Mathlib

/-!
Shallow embedding of `src/pylibs/dynomite/thrift_client.py`, the class
`Client`: a facade over a generated thrift client for the Dynomite
key-value store.  The facade stores `host`, `port` and a `threading.local()`
cell `_con`; `connect` lazily builds a transport/protocol/client triple for
the calling thread, the four store operations forward to the generated
client, `disconnect` closes the calling thread's transport.

Modelling decisions, each tied to the source:
* Threads are identified by `Nat`.  The `threading.local()` cell `_con`
  becomes a map from thread id to a `Slot` holding the two attributes the
  code may set on it (`client`, line 46; `transport`, line 47), each an
  `Option` of an object identity.
* Object identities are allocated from a counter `nextId`; the open/closed
  status of each transport object lives in a map `transportOpen`, since
  `disconnect` mutates the transport object, not the slot.
* `TSocket`, `TBufferedTransport`, `TBinaryProtocol` and
  `Dynomite.Client` construction (lines 43-46) only wrap and store their
  arguments; the fallible network step is `transport.open()` (line 48),
  whose outcome we pass in as a boolean `openOk` (it is decided by the
  environment, not by this code).  Remote calls made by the generated
  client are an oracle `remote : RpcCall → Except PyErr String`; the
  facade forwards calls and returns results or errors unchanged.
* Every operation returns `Except PyErr α × ClientState`: a Python
  exception propagates but the mutations made before it stand.
* `attempts` records every `transport.open()` invocation together with the
  `(host, port)` target the socket was built with (line 43); `calls`
  records every call forwarded to the generated client, positionally.
-/

namespace DynomiteThrift

/-- Errors an operation of the facade can surface: the attribute lookup
error raised when `self._con` lacks the accessed attribute, the transport
error raised by a failed `transport.open()`, and errors raised by the
remote store through the generated client. -/
inductive PyErr where
  | attributeError
  | transportException
  | remoteError (msg : String)
  deriving DecidableEq, Repr

/-- A positional call forwarded to the generated `Dynomite.Client`.  The
generated client's signature is `put(key, context, value)`; the fields of
the `put` constructor record the three positional argument slots in that
order. -/
inductive RpcCall where
  | get (key : String)
  | put (key context value : String)
  | has (key : String)
  | remove (key : String)
  deriving DecidableEq, Repr

/-- One thread's view of the `threading.local()` cell `_con`: the two
attributes the code may set on it, each absent until assigned.  The values
are object identities. -/
structure Slot where
  client : Option Nat
  transport : Option Nat
  deriving DecidableEq, Repr

/-- A slot on which no attribute has been set: the state of `_con` for a
thread that never ran `connect`. -/
def emptySlot : Slot :=
  { client := none, transport := none }

/-- The state of one facade instance, together with the externally
observable effects on its collaborators: `con` is the thread-local cell,
`transportOpen` the open/closed status of each allocated transport object,
`attempts` the trace of `transport.open()` invocations with their targets,
and `calls` the trace of calls forwarded to the generated client. -/
structure ClientState where
  host : String
  port : Nat
  con : Nat → Slot
  transportOpen : Nat → Bool
  nextId : Nat
  attempts : List (String × Nat)
  calls : List RpcCall

/-- Pointwise update of a `Nat`-indexed map. -/
def setAt {α : Type} (f : Nat → α) (i : Nat) (v : α) : Nat → α :=
  fun j => if j = i then v else f j

/-- Lines 19-22, `Client.__init__`: record host and port and install a
fresh empty thread-local cell. -/
def init (host : String) (port : Nat) : ClientState :=
  { host := host
    port := port
    con := fun _ => emptySlot
    transportOpen := fun _ => false
    nextId := 0
    attempts := []
    calls := [] }

namespace Client

/-- Lines 40-48, `Client.connect`.  If the calling thread's cell already
has a `client` attribute, return at once (lines 41-42).  Otherwise build
the socket for `(host, port)`, the buffered transport and the protocol
(lines 43-45, infallible wrappers), set the `client` attribute (line 46),
set the `transport` attribute (line 47), and only then run
`transport.open()` (line 48), which the environment lets succeed or fail
according to `openOk`.  The attribute assignments of lines 46-47 precede
the fallible open and stand even when it raises. -/
def connect (tid : Nat) (openOk : Bool) (s : ClientState) :
    Except PyErr Unit × ClientState :=
  if (s.con tid).client.isSome then
    (Except.ok (), s)
  else
    let transportId := s.nextId
    let clientId := s.nextId + 1
    let withClient : ClientState :=
      { s with
          nextId := s.nextId + 2
          con := setAt s.con tid { s.con tid with client := some clientId } }
    let withTransport : ClientState :=
      { withClient with
          con := setAt withClient.con tid
            { withClient.con tid with transport := some transportId } }
    let attempted : ClientState :=
      { withTransport with
          attempts := withTransport.attempts ++ [(s.host, s.port)] }
    if openOk then
      (Except.ok (),
        { attempted with
            transportOpen := setAt attempted.transportOpen transportId true })
    else
      (Except.error PyErr.transportException, attempted)

/-- Lines 50-51, `Client.disconnect`: `self._con.transport.close()`.  The
attribute lookup raises when the calling thread's cell has no `transport`
attribute; otherwise the transport object is closed.  The cell itself is
not modified. -/
def disconnect (tid : Nat) (s : ClientState) :
    Except PyErr Unit × ClientState :=
  match (s.con tid).transport with
  | none => (Except.error PyErr.attributeError, s)
  | some tr =>
      (Except.ok (), { s with transportOpen := setAt s.transportOpen tr false })

/-- Common shape of the four store operations (lines 24-38): run
`self.connect()`, propagating its exception if it raises; then look up
`self._con.client` and invoke the generated client with the positional
call `c`, recording the call and returning the remote outcome unchanged. -/
def callOp (tid : Nat) (openOk : Bool) (remote : RpcCall → Except PyErr String)
    (c : RpcCall) (s : ClientState) : Except PyErr String × ClientState :=
  match connect tid openOk s with
  | (Except.error e, s1) => (Except.error e, s1)
  | (Except.ok _, s1) =>
    match (s1.con tid).client with
    | none => (Except.error PyErr.attributeError, s1)
    | some _ => (remote c, { s1 with calls := s1.calls ++ [c] })

/-- Lines 24-26: `get(key)` connects then returns
`self._con.client.get(key)`. -/
def get (tid : Nat) (openOk : Bool) (remote : RpcCall → Except PyErr String)
    (key : String) (s : ClientState) : Except PyErr String × ClientState :=
  callOp tid openOk remote (RpcCall.get key) s

/-- Lines 28-30: `put(key, value, context)` connects then returns
`self._con.client.put(key, context, value)` — the facade's `value`
argument is passed third, after `context`. -/
def put (tid : Nat) (openOk : Bool) (remote : RpcCall → Except PyErr String)
    (key value context : String) (s : ClientState) :
    Except PyErr String × ClientState :=
  callOp tid openOk remote (RpcCall.put key context value) s

/-- The `put` call as made when the caller omits `context`: the Python
default argument `context=''` applies. -/
def putDefault (tid : Nat) (openOk : Bool)
    (remote : RpcCall → Except PyErr String) (key value : String)
    (s : ClientState) : Except PyErr String × ClientState :=
  put tid openOk remote key value "" s

/-- Lines 32-34: `has(key)` connects then returns
`self._con.client.has(key)`. -/
def has (tid : Nat) (openOk : Bool) (remote : RpcCall → Except PyErr String)
    (key : String) (s : ClientState) : Except PyErr String × ClientState :=
  callOp tid openOk remote (RpcCall.has key) s

/-- Lines 36-38: `remove(key)` connects then returns
`self._con.client.remove(key)`. -/
def remove (tid : Nat) (openOk : Bool) (remote : RpcCall → Except PyErr String)
    (key : String) (s : ClientState) : Except PyErr String × ClientState :=
  callOp tid openOk remote (RpcCall.remove key) s

end Client

/-- One invocation of a public operation of the facade, tagged with the
calling thread and, where a lazy connect may happen, with the outcome the
environment gives `transport.open()`. -/
inductive Op where
  | connect (tid : Nat) (openOk : Bool)
  | disconnect (tid : Nat)
  | get (tid : Nat) (openOk : Bool) (key : String)
  | put (tid : Nat) (openOk : Bool) (key value context : String)
  | has (tid : Nat) (openOk : Bool) (key : String)
  | remove (tid : Nat) (openOk : Bool) (key : String)
  deriving DecidableEq, Repr

/-- The thread on which an operation runs. -/
def Op.tid : Op → Nat
  | Op.connect t _ => t
  | Op.disconnect t => t
  | Op.get t _ _ => t
  | Op.put t _ _ _ _ => t
  | Op.has t _ _ => t
  | Op.remove t _ _ => t

/-- Run one operation, keeping the state it leaves behind whether it
returns normally or raises. -/
def step (remote : RpcCall → Except PyErr String) (s : ClientState) :
    Op → ClientState
  | Op.connect t ok => (Client.connect t ok s).2
  | Op.disconnect t => (Client.disconnect t s).2
  | Op.get t ok k => (Client.get t ok remote k s).2
  | Op.put t ok k v c => (Client.put t ok remote k v c s).2
  | Op.has t ok k => (Client.has t ok remote k s).2
  | Op.remove t ok k => (Client.remove t ok remote k s).2

/-- Run a sequence of operations from a state. -/
def run (remote : RpcCall → Except PyErr String) (s : ClientState) :
    List Op → ClientState
  | [] => s
  | op :: ops => run remote (step remote s op) ops

/-- A remote oracle whose every call succeeds, for concrete traces. -/
def remoteOk : RpcCall → Except PyErr String :=
  fun _ => Except.ok ""

/-- Well-formedness of a facade state: transport identities recorded in
slots were allocated (are below `nextId`), and no two threads' slots
record the same transport object. -/
def WF (s : ClientState) : Prop :=
  (∀ t tr, (s.con t).transport = some tr → tr < s.nextId) ∧
  (∀ t u tr, t ≠ u → (s.con t).transport = some tr →
    (s.con u).transport ≠ some tr)

/-- A state whose every slot has its `client` attribute exactly when it
has its `transport` attribute. -/
def SlotConsistent (s : ClientState) : Prop :=
  ∀ t, ((s.con t).client.isSome ↔ (s.con t).transport.isSome)

theorem setAt_self {α : Type} (f : Nat → α) (i : Nat) (v : α) :
    setAt f i v i = v := by
  simp [setAt]

theorem setAt_other {α : Type} (f : Nat → α) (i j : Nat) (v : α) (h : j ≠ i) :
    setAt f i v j = f j := by
  simp [setAt, h]

theorem connect_connected (tid : Nat) (ok : Bool) (s : ClientState)
    (hc : (s.con tid).client.isSome) :
    Client.connect tid ok s = (Except.ok (), s) := by
  simp [Client.connect, hc]

theorem connect_fresh_slot (tid : Nat) (ok : Bool) (s : ClientState)
    (hc : (s.con tid).client = none) :
    (Client.connect tid ok s).2.con tid =
      { client := some (s.nextId + 1), transport := some s.nextId } := by
  cases ok <;> simp [Client.connect, hc, setAt]

theorem connect_fresh_attempts (tid : Nat) (ok : Bool) (s : ClientState)
    (hc : (s.con tid).client = none) :
    (Client.connect tid ok s).2.attempts = s.attempts ++ [(s.host, s.port)] := by
  cases ok <;> simp [Client.connect, hc]

theorem connect_fresh_nextId (tid : Nat) (ok : Bool) (s : ClientState)
    (hc : (s.con tid).client = none) :
    (Client.connect tid ok s).2.nextId = s.nextId + 2 := by
  cases ok <;> simp [Client.connect, hc]

theorem connect_con_other (tid : Nat) (ok : Bool) (s : ClientState) (u : Nat)
    (h : u ≠ tid) : (Client.connect tid ok s).2.con u = s.con u := by
  by_cases hc : (s.con tid).client.isSome <;> cases ok <;>
    simp [Client.connect, hc, setAt, h]

theorem connect_transportOpen_lt (tid : Nat) (ok : Bool) (s : ClientState)
    (tr : Nat) (h : tr < s.nextId) :
    (Client.connect tid ok s).2.transportOpen tr = s.transportOpen tr := by
  by_cases hc : (s.con tid).client.isSome <;> cases ok <;>
    simp [Client.connect, hc, setAt, Nat.ne_of_lt h]

theorem connect_host (tid : Nat) (ok : Bool) (s : ClientState) :
    (Client.connect tid ok s).2.host = s.host := by
  by_cases hc : (s.con tid).client.isSome <;> cases ok <;>
    simp [Client.connect, hc]

theorem connect_port (tid : Nat) (ok : Bool) (s : ClientState) :
    (Client.connect tid ok s).2.port = s.port := by
  by_cases hc : (s.con tid).client.isSome <;> cases ok <;>
    simp [Client.connect, hc]

theorem connect_calls (tid : Nat) (ok : Bool) (s : ClientState) :
    (Client.connect tid ok s).2.calls = s.calls := by
  by_cases hc : (s.con tid).client.isSome <;> cases ok <;>
    simp [Client.connect, hc]

theorem connect_nextId_ge (tid : Nat) (ok : Bool) (s : ClientState) :
    s.nextId ≤ (Client.connect tid ok s).2.nextId := by
  by_cases hc : (s.con tid).client.isSome <;> cases ok <;>
    simp [Client.connect, hc]

theorem connect_ok_client (tid : Nat) (ok : Bool) (s : ClientState)
    (h : (Client.connect tid ok s).1 = Except.ok ()) :
    ∃ cid, ((Client.connect tid ok s).2.con tid).client = some cid := by
  by_cases hc : (s.con tid).client.isSome
  · rw [connect_connected tid ok s hc]
    exact Option.isSome_iff_exists.mp hc
  · have hcn : (s.con tid).client = none :=
      Option.not_isSome_iff_eq_none.mp hc
    cases ok
    · simp [Client.connect, hcn] at h
    · rw [connect_fresh_slot tid true s hcn]
      exact ⟨s.nextId + 1, rfl⟩

theorem callOp_state (tid : Nat) (ok : Bool)
    (remote : RpcCall → Except PyErr String) (c : RpcCall) (s : ClientState) :
    (Client.callOp tid ok remote c s).2.con = (Client.connect tid ok s).2.con ∧
    (Client.callOp tid ok remote c s).2.transportOpen
      = (Client.connect tid ok s).2.transportOpen ∧
    (Client.callOp tid ok remote c s).2.host = (Client.connect tid ok s).2.host ∧
    (Client.callOp tid ok remote c s).2.port = (Client.connect tid ok s).2.port ∧
    (Client.callOp tid ok remote c s).2.attempts
      = (Client.connect tid ok s).2.attempts ∧
    (Client.callOp tid ok remote c s).2.nextId
      = (Client.connect tid ok s).2.nextId := by
  unfold Client.callOp
  rcases hcn : Client.connect tid ok s with ⟨r, s1⟩
  cases r with
  | error e => simp
  | ok u => cases hcl : (s1.con tid).client <;> simp [hcl]

theorem callOp_spec (tid : Nat) (ok : Bool)
    (remote : RpcCall → Except PyErr String) (c : RpcCall) (s : ClientState)
    (h : (Client.connect tid ok s).1 = Except.ok ()) :
    (Client.callOp tid ok remote c s).1 = remote c ∧
    (Client.callOp tid ok remote c s).2.calls
      = (Client.connect tid ok s).2.calls ++ [c] := by
  obtain ⟨cid, hcid⟩ := connect_ok_client tid ok s h
  unfold Client.callOp
  rcases hcn : Client.connect tid ok s with ⟨r, s1⟩
  rw [hcn] at h hcid
  cases r with
  | error e => simp at h
  | ok u => simp at hcid ⊢; simp [hcid]

/-- C3: for every key, value and context (`context` defaulting to the
empty string when omitted), `put(key, value, context)` forwards to the
generated client a positional `put` call whose arguments are in the order
`(key, context, value)` — the context precedes the value — and returns
that call's result. -/
theorem put_forwards_context_before_value (tid : Nat) (ok : Bool)
    (remote : RpcCall → Except PyErr String) (key value context : String)
    (s : ClientState) (h : (Client.connect tid ok s).1 = Except.ok ()) :
    (Client.put tid ok remote key value context s).1
      = remote (RpcCall.put key context value) ∧
    (Client.put tid ok remote key value context s).2.calls
      = (Client.connect tid ok s).2.calls ++ [RpcCall.put key context value] ∧
    Client.putDefault tid ok remote key value s
      = Client.put tid ok remote key value "" s := by
  refine ⟨?_, ?_, rfl⟩
  · exact (callOp_spec tid ok remote _ s h).1
  · exact (callOp_spec tid ok remote _ s h).2

/-- Witness for C3: the concrete call of the spec scenario,
`put("k", "v", context="c")` on a fresh facade. -/
theorem put_forwards_context_before_value_witness :
    (Client.put 0 true remoteOk "k" "v" "c" (init "localhost" 9191)).1
      = remoteOk (RpcCall.put "k" "c" "v") ∧
    (Client.put 0 true remoteOk "k" "v" "c" (init "localhost" 9191)).2.calls
      = (Client.connect 0 true (init "localhost" 9191)).2.calls
          ++ [RpcCall.put "k" "c" "v"] ∧
    Client.putDefault 0 true remoteOk "k" "v" (init "localhost" 9191)
      = Client.put 0 true remoteOk "k" "v" "" (init "localhost" 9191) :=
  put_forwards_context_before_value 0 true remoteOk "k" "v" "c"
    (init "localhost" 9191) rfl

/-- C4: on a thread whose slot records no transport, `disconnect` raises
the attribute lookup error rather than being a no-op; it never silently
succeeds (the state comes back unchanged alongside the error). -/
theorem disconnect_without_connection_fails (tid : Nat) (s : ClientState)
    (h : (s.con tid).transport = none) :
    Client.disconnect tid s = (Except.error PyErr.attributeError, s) := by
  simp [Client.disconnect, h]

/-- Witness for C4: `disconnect` on a freshly constructed facade. -/
theorem disconnect_without_connection_fails_witness :
    Client.disconnect 0 (init "localhost" 9191)
      = (Except.error PyErr.attributeError, init "localhost" 9191) :=
  disconnect_without_connection_fails 0 (init "localhost" 9191) rfl

/-- C5: `connect` is idempotent per thread.  If the calling thread's slot
already records a client, `connect` returns at once with the state
unchanged — no additional connection, slot untouched.  From an empty
slot, a successful `connect` makes exactly one connection attempt and
populates the slot. -/
theorem connect_idempotent_per_thread (tid : Nat) (ok : Bool)
    (s : ClientState) :
    ((s.con tid).client.isSome →
      Client.connect tid ok s = (Except.ok (), s)) ∧
    ((s.con tid).client = none →
      (Client.connect tid true s).1 = Except.ok () ∧
      (Client.connect tid true s).2.attempts
        = s.attempts ++ [(s.host, s.port)] ∧
      (Client.connect tid true s).2.con tid
        = { client := some (s.nextId + 1), transport := some s.nextId }) := by
  constructor
  · intro hc
    exact connect_connected tid ok s hc
  · intro hc
    exact ⟨by simp [Client.connect, hc],
      connect_fresh_attempts tid true s hc,
      connect_fresh_slot tid true s hc⟩

/-- Witness for C5: on a fresh facade the first `connect` makes one
attempt, and a second `connect` returns the state unchanged. -/
theorem connect_idempotent_per_thread_witness :
    Client.connect 0 true (Client.connect 0 true (init "localhost" 9191)).2
      = (Except.ok (), (Client.connect 0 true (init "localhost" 9191)).2) ∧
    (Client.connect 0 true (init "localhost" 9191)).2.attempts
      = [("localhost", 9191)] := by
  constructor
  · exact (connect_idempotent_per_thread 0 true
      (Client.connect 0 true (init "localhost" 9191)).2).1 rfl
  · have h := (connect_idempotent_per_thread 0 true (init "localhost" 9191)).2 rfl
    simpa using h.2.1

/-- C6: each of `get`, `has` and `remove` first ensures a connection for
the calling thread, then issues exactly the corresponding call with the
given key to the generated client, and returns that call's outcome
unchanged — the remote result when it succeeds, the remote error when it
raises; no caching, translation or retry. -/
theorem get_has_remove_forward (tid : Nat) (ok : Bool)
    (remote : RpcCall → Except PyErr String) (key : String) (s : ClientState)
    (h : (Client.connect tid ok s).1 = Except.ok ()) :
    ((Client.get tid ok remote key s).2.con tid).client.isSome ∧
    ((Client.get tid ok remote key s).1 = remote (RpcCall.get key) ∧
      (Client.get tid ok remote key s).2.calls
        = (Client.connect tid ok s).2.calls ++ [RpcCall.get key]) ∧
    ((Client.has tid ok remote key s).1 = remote (RpcCall.has key) ∧
      (Client.has tid ok remote key s).2.calls
        = (Client.connect tid ok s).2.calls ++ [RpcCall.has key]) ∧
    ((Client.remove tid ok remote key s).1 = remote (RpcCall.remove key) ∧
      (Client.remove tid ok remote key s).2.calls
        = (Client.connect tid ok s).2.calls ++ [RpcCall.remove key]) := by
  obtain ⟨cid, hcid⟩ := connect_ok_client tid ok s h
  refine ⟨?_, callOp_spec tid ok remote _ s h, callOp_spec tid ok remote _ s h,
    callOp_spec tid ok remote _ s h⟩
  rw [show (Client.get tid ok remote key s).2.con
    = (Client.connect tid ok s).2.con
    from (callOp_state tid ok remote (RpcCall.get key) s).1, hcid]
  rfl

/-- Witness for C6: a concrete `get` on a fresh facade returns the remote
oracle's answer unchanged. -/
theorem get_has_remove_forward_witness :
    (Client.get 0 true remoteOk "a" (init "localhost" 9191)).1
      = Except.ok "" := by
  have h := get_has_remove_forward 0 true remoteOk "a" (init "localhost" 9191) rfl
  exact h.2.1.1

/-- C1 fails on the code: after connect, disconnect, get on one thread,
the facade has made exactly one connection attempt, not two.  Lines 50-51
only close the transport and leave the `client` attribute in place, so
the `get`'s lazy `connect` (line 41) returns at once and the call is
issued on the retained client whose transport is closed. -/
theorem reconnect_after_disconnect_not_attempted :
    (run remoteOk (init "localhost" 9191)
      [Op.connect 0 true, Op.disconnect 0, Op.get 0 true "a"]).attempts.length
        = 1 ∧
    (run remoteOk (init "localhost" 9191)
      [Op.connect 0 true, Op.disconnect 0, Op.get 0 true "a"]).transportOpen 0
        = false ∧
    ((run remoteOk (init "localhost" 9191)
      [Op.connect 0 true, Op.disconnect 0, Op.get 0 true "a"]).con 0).client
        = some 1 :=
  ⟨rfl, rfl, rfl⟩

/-- C2 fails on the code: `connect` sets the slot's `client` and
`transport` attributes (lines 46-47) before running `transport.open()`
(line 48), so when the open raises, the error propagates but the slot
keeps the half-initialized entry; a later `connect` then sees the
`client` attribute and returns at once — no fresh attempt is ever made
and the transport stays closed. -/
theorem failed_connect_poisons_slot :
    (Client.connect 0 false (init "localhost" 9191)).1
      = Except.error PyErr.transportException ∧
    ((Client.connect 0 false (init "localhost" 9191)).2.con 0).client
      = some 1 ∧
    ((Client.connect 0 false (init "localhost" 9191)).2.con 0).transport
      = some 0 ∧
    Client.connect 0 true (Client.connect 0 false (init "localhost" 9191)).2
      = (Except.ok (), (Client.connect 0 false (init "localhost" 9191)).2) ∧
    (Client.connect 0 false (init "localhost" 9191)).2.attempts.length = 1 ∧
    (Client.connect 0 false (init "localhost" 9191)).2.transportOpen 0
      = false :=
  ⟨rfl, rfl, rfl, rfl, rfl, rfl⟩

theorem disconnect_frame (t : Nat) (s : ClientState) :
    (Client.disconnect t s).2.con = s.con ∧
    (Client.disconnect t s).2.host = s.host ∧
    (Client.disconnect t s).2.port = s.port ∧
    (Client.disconnect t s).2.attempts = s.attempts ∧
    (Client.disconnect t s).2.nextId = s.nextId ∧
    (Client.disconnect t s).2.calls = s.calls := by
  cases htr : (s.con t).transport <;> simp [Client.disconnect, htr]

theorem callOp_con_eq (tid : Nat) (ok : Bool)
    (remote : RpcCall → Except PyErr String) (c : RpcCall) (s : ClientState) :
    (Client.callOp tid ok remote c s).2.con = (Client.connect tid ok s).2.con :=
  (callOp_state tid ok remote c s).1

theorem connect_slot_mono (tid : Nat) (ok : Bool) (s : ClientState) (u : Nat) :
    ((s.con u).client.isSome →
      ((Client.connect tid ok s).2.con u).client.isSome) ∧
    ((s.con u).transport.isSome →
      ((Client.connect tid ok s).2.con u).transport.isSome) := by
  by_cases hu : u = tid
  · subst hu
    by_cases hc : (s.con u).client.isSome
    · rw [connect_connected u ok s hc]
      exact ⟨id, id⟩
    · have hcn := Option.not_isSome_iff_eq_none.mp hc
      rw [connect_fresh_slot u ok s hcn]
      exact ⟨fun _ => rfl, fun _ => rfl⟩
  · rw [connect_con_other tid ok s u hu]
    exact ⟨id, id⟩

theorem step_slot_mono (remote : RpcCall → Except PyErr String)
    (s : ClientState) (op : Op) (u : Nat) :
    ((s.con u).client.isSome → ((step remote s op).con u).client.isSome) ∧
    ((s.con u).transport.isSome →
      ((step remote s op).con u).transport.isSome) := by
  cases op with
  | connect t ok => exact connect_slot_mono t ok s u
  | disconnect t =>
    rw [show (step remote s (Op.disconnect t)).con = s.con from
      (disconnect_frame t s).1]
    exact ⟨id, id⟩
  | get t ok k =>
    rw [show (step remote s (Op.get t ok k)).con = (Client.connect t ok s).2.con
      from callOp_con_eq t ok remote (RpcCall.get k) s]
    exact connect_slot_mono t ok s u
  | put t ok k v c =>
    rw [show (step remote s (Op.put t ok k v c)).con
        = (Client.connect t ok s).2.con
      from callOp_con_eq t ok remote (RpcCall.put k c v) s]
    exact connect_slot_mono t ok s u
  | has t ok k =>
    rw [show (step remote s (Op.has t ok k)).con = (Client.connect t ok s).2.con
      from callOp_con_eq t ok remote (RpcCall.has k) s]
    exact connect_slot_mono t ok s u
  | remove t ok k =>
    rw [show (step remote s (Op.remove t ok k)).con
        = (Client.connect t ok s).2.con
      from callOp_con_eq t ok remote (RpcCall.remove k) s]
    exact connect_slot_mono t ok s u

/-- C9: `disconnect` closes the calling thread's transport object but
leaves the slot entry in place — the state after `disconnect` differs
only in the transport's open flag, so the `client` and `transport`
attributes remain recorded — and no operation of the facade ever removes
a populated slot attribute of any thread. -/
theorem disconnect_leaves_slot_entry (remote : RpcCall → Except PyErr String)
    (s : ClientState) (t tr : Nat) (op : Op) (u : Nat)
    (h : (s.con t).transport = some tr) :
    Client.disconnect t s
      = (Except.ok (),
         { s with transportOpen := setAt s.transportOpen tr false }) ∧
    ((s.con u).client.isSome → ((step remote s op).con u).client.isSome) ∧
    ((s.con u).transport.isSome →
      ((step remote s op).con u).transport.isSome) := by
  refine ⟨by simp [Client.disconnect, h], ?_, ?_⟩
  · exact (step_slot_mono remote s op u).1
  · exact (step_slot_mono remote s op u).2

/-- Witness for C9: disconnecting a freshly connected thread keeps its
`client` attribute recorded. -/
theorem disconnect_leaves_slot_entry_witness :
    Client.disconnect 0 (Client.connect 0 true (init "localhost" 9191)).2
      = (Except.ok (),
         { (Client.connect 0 true (init "localhost" 9191)).2 with
             transportOpen :=
               setAt (Client.connect 0 true
                 (init "localhost" 9191)).2.transportOpen 0 false }) ∧
    ((step remoteOk (Client.connect 0 true (init "localhost" 9191)).2
      (Op.disconnect 0)).con 0).client.isSome := by
  have h := disconnect_leaves_slot_entry remoteOk
    (Client.connect 0 true (init "localhost" 9191)).2 0 0 (Op.disconnect 0) 0
    rfl
  exact ⟨h.1, h.2.1 rfl⟩

theorem connect_slotConsistent (tid : Nat) (ok : Bool) (s : ClientState)
    (h : SlotConsistent s) : SlotConsistent (Client.connect tid ok s).2 := by
  intro u
  by_cases hu : u = tid
  · subst hu
    by_cases hc : (s.con u).client.isSome
    · rw [connect_connected u ok s hc]
      exact h u
    · have hcn := Option.not_isSome_iff_eq_none.mp hc
      rw [connect_fresh_slot u ok s hcn]
      simp
  · rw [connect_con_other tid ok s u hu]
    exact h u

theorem step_slotConsistent (remote : RpcCall → Except PyErr String)
    (s : ClientState) (op : Op) (h : SlotConsistent s) :
    SlotConsistent (step remote s op) := by
  cases op with
  | connect t ok => exact connect_slotConsistent t ok s h
  | disconnect t =>
    intro u
    rw [show (step remote s (Op.disconnect t)).con = s.con from
      (disconnect_frame t s).1]
    exact h u
  | get t ok k =>
    intro u
    rw [show (step remote s (Op.get t ok k)).con = (Client.connect t ok s).2.con
      from callOp_con_eq t ok remote (RpcCall.get k) s]
    exact connect_slotConsistent t ok s h u
  | put t ok k v c =>
    intro u
    rw [show (step remote s (Op.put t ok k v c)).con
        = (Client.connect t ok s).2.con
      from callOp_con_eq t ok remote (RpcCall.put k c v) s]
    exact connect_slotConsistent t ok s h u
  | has t ok k =>
    intro u
    rw [show (step remote s (Op.has t ok k)).con = (Client.connect t ok s).2.con
      from callOp_con_eq t ok remote (RpcCall.has k) s]
    exact connect_slotConsistent t ok s h u
  | remove t ok k =>
    intro u
    rw [show (step remote s (Op.remove t ok k)).con
        = (Client.connect t ok s).2.con
      from callOp_con_eq t ok remote (RpcCall.remove k) s]
    exact connect_slotConsistent t ok s h u

theorem run_slotConsistent (remote : RpcCall → Except PyErr String)
    (ops : List Op) :
    ∀ s, SlotConsistent s → SlotConsistent (run remote s ops) := by
  induction ops with
  | nil => intro s h; exact h
  | cons op ops ih =>
    intro s h
    exact ih _ (step_slotConsistent remote s op h)

/-- C10: after every sequence of operations on a fresh facade — whether
the operations returned normally or raised — every thread's slot records
the `client` attribute exactly when it records the `transport`
attribute; the slot never ends up with exactly one of the two. -/
theorem slot_never_half_populated (remote : RpcCall → Except PyErr String)
    (host : String) (port : Nat) (ops : List Op) :
    SlotConsistent (run remote (init host port) ops) :=
  run_slotConsistent remote ops (init host port)
    (fun _ => by simp [init, emptySlot])

theorem WF_init (host : String) (port : Nat) : WF (init host port) := by
  refine ⟨?_, ?_⟩
  · intro t tr htr
    simp [init, emptySlot] at htr
  · intro t u tr htu htr
    simp [init, emptySlot] at htr

theorem connect_WF (tid : Nat) (ok : Bool) (s : ClientState) (h : WF s) :
    WF (Client.connect tid ok s).2 := by
  by_cases hc : (s.con tid).client.isSome
  · rw [connect_connected tid ok s hc]
    exact h
  · have hcn := Option.not_isSome_iff_eq_none.mp hc
    have hslot := connect_fresh_slot tid ok s hcn
    have hnext := connect_fresh_nextId tid ok s hcn
    refine ⟨?_, ?_⟩
    · intro t tr htr
      rw [hnext]
      by_cases ht : t = tid
      · subst ht
        rw [hslot] at htr
        simp at htr
        omega
      · rw [connect_con_other tid ok s t ht] at htr
        have := h.1 t tr htr
        omega
    · intro t u tr htu htr hcon
      by_cases ht : t = tid
      · subst ht
        rw [hslot] at htr
        simp at htr
        have hu : u ≠ t := Ne.symm htu
        rw [connect_con_other t ok s u hu] at hcon
        have := h.1 u tr hcon
        omega
      · rw [connect_con_other tid ok s t ht] at htr
        by_cases hu : u = tid
        · subst hu
          rw [hslot] at hcon
          simp at hcon
          have := h.1 t tr htr
          omega
        · rw [connect_con_other tid ok s u hu] at hcon
          exact h.2 t u tr htu htr hcon

theorem step_WF (remote : RpcCall → Except PyErr String) (s : ClientState)
    (op : Op) (h : WF s) : WF (step remote s op) := by
  cases op with
  | connect t ok => exact connect_WF t ok s h
  | disconnect t =>
    have hcon := (disconnect_frame t s).1
    have hnext := (disconnect_frame t s).2.2.2.2.1
    refine ⟨?_, ?_⟩
    · intro a tr htr
      rw [show (step remote s (Op.disconnect t)).con = s.con from hcon] at htr
      rw [show (step remote s (Op.disconnect t)).nextId = s.nextId from hnext]
      exact h.1 a tr htr
    · intro a b tr hab htr
      rw [show (step remote s (Op.disconnect t)).con = s.con from hcon] at htr ⊢
      exact h.2 a b tr hab htr
  | get t ok k =>
    have hcon := callOp_con_eq t ok remote (RpcCall.get k) s
    have hnext := (callOp_state t ok remote (RpcCall.get k) s).2.2.2.2.2
    have hw := connect_WF t ok s h
    refine ⟨?_, ?_⟩
    · intro a tr htr
      rw [show (step remote s (Op.get t ok k)).con
        = (Client.connect t ok s).2.con from hcon] at htr
      rw [show (step remote s (Op.get t ok k)).nextId
        = (Client.connect t ok s).2.nextId from hnext]
      exact hw.1 a tr htr
    · intro a b tr hab htr
      rw [show (step remote s (Op.get t ok k)).con
        = (Client.connect t ok s).2.con from hcon] at htr ⊢
      exact hw.2 a b tr hab htr
  | put t ok k v c =>
    have hcon := callOp_con_eq t ok remote (RpcCall.put k c v) s
    have hnext := (callOp_state t ok remote (RpcCall.put k c v) s).2.2.2.2.2
    have hw := connect_WF t ok s h
    refine ⟨?_, ?_⟩
    · intro a tr htr
      rw [show (step remote s (Op.put t ok k v c)).con
        = (Client.connect t ok s).2.con from hcon] at htr
      rw [show (step remote s (Op.put t ok k v c)).nextId
        = (Client.connect t ok s).2.nextId from hnext]
      exact hw.1 a tr htr
    · intro a b tr hab htr
      rw [show (step remote s (Op.put t ok k v c)).con
        = (Client.connect t ok s).2.con from hcon] at htr ⊢
      exact hw.2 a b tr hab htr
  | has t ok k =>
    have hcon := callOp_con_eq t ok remote (RpcCall.has k) s
    have hnext := (callOp_state t ok remote (RpcCall.has k) s).2.2.2.2.2
    have hw := connect_WF t ok s h
    refine ⟨?_, ?_⟩
    · intro a tr htr
      rw [show (step remote s (Op.has t ok k)).con
        = (Client.connect t ok s).2.con from hcon] at htr
      rw [show (step remote s (Op.has t ok k)).nextId
        = (Client.connect t ok s).2.nextId from hnext]
      exact hw.1 a tr htr
    · intro a b tr hab htr
      rw [show (step remote s (Op.has t ok k)).con
        = (Client.connect t ok s).2.con from hcon] at htr ⊢
      exact hw.2 a b tr hab htr
  | remove t ok k =>
    have hcon := callOp_con_eq t ok remote (RpcCall.remove k) s
    have hnext := (callOp_state t ok remote (RpcCall.remove k) s).2.2.2.2.2
    have hw := connect_WF t ok s h
    refine ⟨?_, ?_⟩
    · intro a tr htr
      rw [show (step remote s (Op.remove t ok k)).con
        = (Client.connect t ok s).2.con from hcon] at htr
      rw [show (step remote s (Op.remove t ok k)).nextId
        = (Client.connect t ok s).2.nextId from hnext]
      exact hw.1 a tr htr
    · intro a b tr hab htr
      rw [show (step remote s (Op.remove t ok k)).con
        = (Client.connect t ok s).2.con from hcon] at htr ⊢
      exact hw.2 a b tr hab htr

theorem run_WF (remote : RpcCall → Except PyErr String) (ops : List Op) :
    ∀ s, WF s → WF (run remote s ops) := by
  induction ops with
  | nil => intro s h; exact h
  | cons op ops ih =>
    intro s h
    exact ih _ (step_WF remote s op h)

/-- C7: in a well-formed state (as every state reachable from `init` is,
by `WF_init` and `run_WF`), an operation run by one thread leaves every
other thread's slot entry unchanged, and leaves the open/closed status
of the transport recorded by every other thread unchanged — so closing
one thread's connection cannot affect another thread's. -/
theorem thread_isolation (remote : RpcCall → Except PyErr String)
    (s : ClientState) (op : Op) (t2 : Nat) (hwf : WF s)
    (ht : op.tid ≠ t2) :
    (step remote s op).con t2 = s.con t2 ∧
    ∀ tr, (s.con t2).transport = some tr →
      (step remote s op).transportOpen tr = s.transportOpen tr := by
  cases op with
  | connect t ok =>
    refine ⟨connect_con_other t ok s t2 (Ne.symm ht), ?_⟩
    intro tr htr
    exact connect_transportOpen_lt t ok s tr (hwf.1 t2 tr htr)
  | disconnect t =>
    refine ⟨congrFun (disconnect_frame t s).1 t2, ?_⟩
    intro tr htr
    cases htt : (s.con t).transport with
    | none => simp [step, Client.disconnect, htt]
    | some tr1 =>
      have hne : tr1 ≠ tr := fun e => hwf.2 t t2 tr ht (e ▸ htt) htr
      simp [step, Client.disconnect, htt, setAt, Ne.symm hne]
  | get t ok k =>
    have hcon := callOp_con_eq t ok remote (RpcCall.get k) s
    have hopen := (callOp_state t ok remote (RpcCall.get k) s).2.1
    refine ⟨?_, ?_⟩
    · rw [show (step remote s (Op.get t ok k)).con
        = (Client.connect t ok s).2.con from hcon]
      exact connect_con_other t ok s t2 (Ne.symm ht)
    · intro tr htr
      rw [show (step remote s (Op.get t ok k)).transportOpen
        = (Client.connect t ok s).2.transportOpen from hopen]
      exact connect_transportOpen_lt t ok s tr (hwf.1 t2 tr htr)
  | put t ok k v c =>
    have hcon := callOp_con_eq t ok remote (RpcCall.put k c v) s
    have hopen := (callOp_state t ok remote (RpcCall.put k c v) s).2.1
    refine ⟨?_, ?_⟩
    · rw [show (step remote s (Op.put t ok k v c)).con
        = (Client.connect t ok s).2.con from hcon]
      exact connect_con_other t ok s t2 (Ne.symm ht)
    · intro tr htr
      rw [show (step remote s (Op.put t ok k v c)).transportOpen
        = (Client.connect t ok s).2.transportOpen from hopen]
      exact connect_transportOpen_lt t ok s tr (hwf.1 t2 tr htr)
  | has t ok k =>
    have hcon := callOp_con_eq t ok remote (RpcCall.has k) s
    have hopen := (callOp_state t ok remote (RpcCall.has k) s).2.1
    refine ⟨?_, ?_⟩
    · rw [show (step remote s (Op.has t ok k)).con
        = (Client.connect t ok s).2.con from hcon]
      exact connect_con_other t ok s t2 (Ne.symm ht)
    · intro tr htr
      rw [show (step remote s (Op.has t ok k)).transportOpen
        = (Client.connect t ok s).2.transportOpen from hopen]
      exact connect_transportOpen_lt t ok s tr (hwf.1 t2 tr htr)
  | remove t ok k =>
    have hcon := callOp_con_eq t ok remote (RpcCall.remove k) s
    have hopen := (callOp_state t ok remote (RpcCall.remove k) s).2.1
    refine ⟨?_, ?_⟩
    · rw [show (step remote s (Op.remove t ok k)).con
        = (Client.connect t ok s).2.con from hcon]
      exact connect_con_other t ok s t2 (Ne.symm ht)
    · intro tr htr
      rw [show (step remote s (Op.remove t ok k)).transportOpen
        = (Client.connect t ok s).2.transportOpen from hopen]
      exact connect_transportOpen_lt t ok s tr (hwf.1 t2 tr htr)

/-- Witness for C7: thread 0 connecting does not touch thread 1's slot. -/
theorem thread_isolation_witness :
    (step remoteOk (init "localhost" 9191) (Op.connect 0 true)).con 1
      = (init "localhost" 9191).con 1 := by
  have h := thread_isolation remoteOk (init "localhost" 9191)
    (Op.connect 0 true) 1 (WF_init "localhost" 9191) (by decide)
  exact h.1

theorem connect_attempts_extra (tid : Nat) (ok : Bool) (s : ClientState) :
    ∃ extra, (Client.connect tid ok s).2.attempts = s.attempts ++ extra ∧
      ∀ a ∈ extra, a = (s.host, s.port) := by
  by_cases hc : (s.con tid).client.isSome
  · refine ⟨[], ?_, by simp⟩
    rw [connect_connected tid ok s hc]
    simp
  · refine ⟨[(s.host, s.port)], ?_, by simp⟩
    exact connect_fresh_attempts tid ok s (Option.not_isSome_iff_eq_none.mp hc)

theorem step_host (remote : RpcCall → Except PyErr String) (s : ClientState)
    (op : Op) : (step remote s op).host = s.host := by
  cases op with
  | connect t ok => exact connect_host t ok s
  | disconnect t => exact (disconnect_frame t s).2.1
  | get t ok k =>
    rw [show (step remote s (Op.get t ok k)).host
      = (Client.connect t ok s).2.host
      from (callOp_state t ok remote (RpcCall.get k) s).2.2.1]
    exact connect_host t ok s
  | put t ok k v c =>
    rw [show (step remote s (Op.put t ok k v c)).host
      = (Client.connect t ok s).2.host
      from (callOp_state t ok remote (RpcCall.put k c v) s).2.2.1]
    exact connect_host t ok s
  | has t ok k =>
    rw [show (step remote s (Op.has t ok k)).host
      = (Client.connect t ok s).2.host
      from (callOp_state t ok remote (RpcCall.has k) s).2.2.1]
    exact connect_host t ok s
  | remove t ok k =>
    rw [show (step remote s (Op.remove t ok k)).host
      = (Client.connect t ok s).2.host
      from (callOp_state t ok remote (RpcCall.remove k) s).2.2.1]
    exact connect_host t ok s

theorem step_port (remote : RpcCall → Except PyErr String) (s : ClientState)
    (op : Op) : (step remote s op).port = s.port := by
  cases op with
  | connect t ok => exact connect_port t ok s
  | disconnect t => exact (disconnect_frame t s).2.2.1
  | get t ok k =>
    rw [show (step remote s (Op.get t ok k)).port
      = (Client.connect t ok s).2.port
      from (callOp_state t ok remote (RpcCall.get k) s).2.2.2.1]
    exact connect_port t ok s
  | put t ok k v c =>
    rw [show (step remote s (Op.put t ok k v c)).port
      = (Client.connect t ok s).2.port
      from (callOp_state t ok remote (RpcCall.put k c v) s).2.2.2.1]
    exact connect_port t ok s
  | has t ok k =>
    rw [show (step remote s (Op.has t ok k)).port
      = (Client.connect t ok s).2.port
      from (callOp_state t ok remote (RpcCall.has k) s).2.2.2.1]
    exact connect_port t ok s
  | remove t ok k =>
    rw [show (step remote s (Op.remove t ok k)).port
      = (Client.connect t ok s).2.port
      from (callOp_state t ok remote (RpcCall.remove k) s).2.2.2.1]
    exact connect_port t ok s

theorem step_attempts (remote : RpcCall → Except PyErr String)
    (s : ClientState) (op : Op) :
    ∃ extra, (step remote s op).attempts = s.attempts ++ extra ∧
      ∀ a ∈ extra, a = (s.host, s.port) := by
  cases op with
  | connect t ok => exact connect_attempts_extra t ok s
  | disconnect t =>
    exact ⟨[], by rw [show (step remote s (Op.disconnect t)).attempts
      = s.attempts from (disconnect_frame t s).2.2.2.1]; simp, by simp⟩
  | get t ok k =>
    rw [show (step remote s (Op.get t ok k)).attempts
      = (Client.connect t ok s).2.attempts
      from (callOp_state t ok remote (RpcCall.get k) s).2.2.2.2.1]
    exact connect_attempts_extra t ok s
  | put t ok k v c =>
    rw [show (step remote s (Op.put t ok k v c)).attempts
      = (Client.connect t ok s).2.attempts
      from (callOp_state t ok remote (RpcCall.put k c v) s).2.2.2.2.1]
    exact connect_attempts_extra t ok s
  | has t ok k =>
    rw [show (step remote s (Op.has t ok k)).attempts
      = (Client.connect t ok s).2.attempts
      from (callOp_state t ok remote (RpcCall.has k) s).2.2.2.2.1]
    exact connect_attempts_extra t ok s
  | remove t ok k =>
    rw [show (step remote s (Op.remove t ok k)).attempts
      = (Client.connect t ok s).2.attempts
      from (callOp_state t ok remote (RpcCall.remove k) s).2.2.2.2.1]
    exact connect_attempts_extra t ok s

/-- C8: the host and port recorded at construction are immutable — no
sequence of public operations changes them — and every connection
attempt the facade ever makes targets exactly that `(host, port)` pair. -/
theorem host_port_immutable (remote : RpcCall → Except PyErr String)
    (host : String) (port : Nat) (ops : List Op) :
    (run remote (init host port) ops).host = host ∧
    (run remote (init host port) ops).port = port ∧
    ∀ a ∈ (run remote (init host port) ops).attempts, a = (host, port) := by
  have key : ∀ ops s, s.host = host → s.port = port →
      (∀ a ∈ s.attempts, a = (host, port)) →
      (run remote s ops).host = host ∧ (run remote s ops).port = port ∧
      ∀ a ∈ (run remote s ops).attempts, a = (host, port) := by
    intro ops
    induction ops with
    | nil =>
      intro s h1 h2 h3
      exact ⟨h1, h2, h3⟩
    | cons op ops ih =>
      intro s h1 h2 h3
      obtain ⟨extra, he, hall⟩ := step_attempts remote s op
      refine ih (step remote s op) (by rw [step_host remote s op]; exact h1)
        (by rw [step_port remote s op]; exact h2) ?_
      intro a ha
      rw [he] at ha
      rcases List.mem_append.mp ha with hold | hnew
      · exact h3 a hold
      · rw [hall a hnew, h1, h2]
  exact key ops (init host port) rfl rfl (by simp [init])

/-- Witness for C8: one connect on a fresh facade; the single recorded
attempt targets the constructed pair. -/
theorem host_port_immutable_witness :
    (run remoteOk (init "localhost" 9191) [Op.connect 0 true]).host
      = "localhost" ∧
    (run remoteOk (init "localhost" 9191) [Op.connect 0 true]).port = 9191 ∧
    (("localhost", 9191) : String × Nat) = ("localhost", 9191) := by
  have h := host_port_immutable remoteOk "localhost" 9191 [Op.connect 0 true]
  exact ⟨h.1, h.2.1, h.2.2 ("localhost", 9191) (List.Mem.head _)⟩

end DynomiteThrift
